import Mathlib

set_option maxHeartbeats 1000000
set_option maxRecDepth 100000

/-!
Shallow embedding of the DOM distillation module of roxybrowser-playwright-mcp.

The embedding follows `src/src/domOptimizer.ts` (the multi-frame
`captureOptimizedSnapshot` pass), the legacy recursive same-origin walk
`collectAllElements` inside `captureOptimizedSnapshotSingleFrame`, and the
action tool handlers (`click` / `hover` / `selectOption` / `drag`) of the
tools file.  Pixel coordinates are modelled as `Int` (the claims under
study are exact integer-pixel statements), CSS opacity as `Rat`.  Browser
side effects (writing the `data-mcp-id` attribute on retained elements)
are made explicit: the page state is threaded through and returned.
-/

/-- Result of `getBoundingClientRect` / `boundingBox`: an axis-aligned box.
`DOMRect.top = y` and `DOMRect.bottom = y + height` (heights returned by the
browser are non-negative). -/
structure Rect where
  x : Int
  y : Int
  width : Int
  height : Int
deriving DecidableEq

def Rect.top (r : Rect) : Int := r.y

def Rect.bottom (r : Rect) : Int := r.y + r.height

/-- One candidate element as seen by the injected script: tag name (DOM
`tagName`, uppercase), its bounding rect in frame-local viewport coordinates,
the computed style fields the filter reads, the text sources, and the
attribute map (`getAttribute` / `setAttribute`). -/
structure DomElement where
  tagName : String
  rect : Rect
  display : String
  visibility : String
  opacity : Rat
  innerText : String
  value : String
  attrs : List (String × String)
deriving DecidableEq

/-- `el.getAttribute(key)`: first binding of `key`, or `null` (`none`). -/
def getAttr : List (String × String) → String → Option String
  | [], _ => none
  | (k, v) :: rest, key => if k = key then some v else getAttr rest key

/-- `el.setAttribute(key, val)`: overwrite the existing binding or append. -/
def setAttr : List (String × String) → String → String → List (String × String)
  | [], key, v => [(key, v)]
  | (k, w) :: rest, key, v =>
    if k = key then (key, v) :: rest else (k, w) :: setAttr rest key v

def DomElement.getAttribute (el : DomElement) (key : String) : Option String :=
  getAttr el.attrs key

/-- JavaScript `a || b` on strings: the empty string is falsy. -/
def jsOrString (a b : String) : String := if a = "" then b else a

/-- `el.getAttribute(key)` coerced through `||`: `null` behaves as falsy. -/
def attrOrEmpty (el : DomElement) (key : String) : String :=
  (el.getAttribute key).getD ""

/-- The `innerText || aria-label || placeholder || title || alt || value || ''`
chain of the source. -/
def extractRawText (el : DomElement) : String :=
  jsOrString el.innerText
    (jsOrString (attrOrEmpty el "aria-label")
      (jsOrString (attrOrEmpty el "placeholder")
        (jsOrString (attrOrEmpty el "title")
          (jsOrString (attrOrEmpty el "alt") el.value))))

/-- Collapse runs of spaces to a single space (second phase of
`text.replace(/\s+/g, ' ')` after whitespace has been canonicalised). -/
def squashSpaces : List Char → List Char
  | [] => []
  | [c] => [c]
  | a :: b :: rest =>
    if a = ' ' ∧ b = ' ' then squashSpaces (b :: rest)
    else a :: squashSpaces (b :: rest)

/-- `text.replace(/\s+/g, ' ')`: every maximal whitespace run becomes one
space. -/
def jsCollapseWs (s : String) : String :=
  List.asString (squashSpaces (s.data.map (fun c => if c.isWhitespace then ' ' else c)))

/-- JavaScript `String.prototype.trim`: strip leading and trailing
whitespace.  (Defined over the character list so that it is kernel
computable.) -/
def jsTrim (s : String) : String :=
  List.asString (((s.data.dropWhile Char.isWhitespace).reverse.dropWhile
    Char.isWhitespace).reverse)

/-- JavaScript `s.slice(0, n)`. -/
def jsSlice (s : String) (n : Nat) : String := List.asString (s.data.take n)

/-- JavaScript `s.toLowerCase()`. -/
def jsToLower (s : String) : String := List.asString (s.data.map Char.toLower)

/-- `text.replace(/\s+/g, ' ').trim().slice(0, maxTextLength)`. -/
def extractText (maxTextLength : Nat) (el : DomElement) : String :=
  jsSlice (jsTrim (jsCollapseWs (extractRawText el))) maxTextLength

/-- The argument record handed to `frame.evaluate` (`{...opts, startId,
frameOffsetX, frameOffsetY}`). -/
structure EvalOpts where
  viewportBuffer : Int
  maxTextLength : Nat
  includeHidden : Bool
  minWidth : Int
  minHeight : Int
  startId : Nat
  frameOffsetX : Int
  frameOffsetY : Int
deriving DecidableEq

/-- Size check: `if (rect.width < minWidth || rect.height < minHeight) return`. -/
def passesSizeCheck (minWidth minHeight : Int) (r : Rect) : Bool :=
  !(decide (r.width < minWidth) || decide (r.height < minHeight))

/-- CSS visibility check: `display === 'none' || visibility === 'hidden' ||
parseFloat(opacity) === 0`. -/
def isStyleHidden (el : DomElement) : Bool :=
  decide (el.display = "none") || decide (el.visibility = "hidden") ||
    decide (el.opacity = 0)

/-- Viewport intersection with buffer, coordinates adjusted by the frame
offset, exactly as in the source:
rejection when `absoluteBottom < viewportTop || absoluteTop > viewportBottom`. -/
def passesViewportCheck (viewportBuffer viewportHeight scrollY frameOffsetY : Int)
    (r : Rect) : Bool :=
  let absoluteTop := r.top + scrollY + frameOffsetY
  let absoluteBottom := r.bottom + scrollY + frameOffsetY
  let viewportTop := scrollY - viewportBuffer
  let viewportBottom := scrollY + viewportHeight + viewportBuffer
  !(decide (absoluteBottom < viewportTop) || decide (absoluteTop > viewportBottom))

/-- The composite retention decision of the per-element callback: size check
first (unconditional), then, unless `includeHidden`, style check and viewport
check. -/
def retainElement (o : EvalOpts) (viewportHeight scrollY : Int) (el : DomElement) : Bool :=
  passesSizeCheck o.minWidth o.minHeight el.rect &&
    (o.includeHidden ||
      (!(isStyleHidden el) &&
        passesViewportCheck o.viewportBuffer viewportHeight scrollY o.frameOffsetY el.rect))

/-- One row of `elementMap` (interface `ElementMetadata` of the source). -/
structure ElementMetadata where
  mcpId : Nat
  tagName : String
  text : String
  role : Option String
  bounds : Rect
deriving DecidableEq

/-- JavaScript truthiness of a nullable string. -/
def jsTruthy : Option String → Bool
  | some s => !(decide (s = ""))
  | none => false

/-- `role: role || undefined` of the metadata record. -/
def roleOrUndefined (v : Option String) : Option String :=
  match v with
  | some r => if r = "" then none else some r
  | none => none

def buildMeta (o : EvalOpts) (el : DomElement) (mcpId : Nat) : ElementMetadata :=
  { mcpId
    tagName := jsToLower el.tagName
    text := extractText o.maxTextLength el
    role := roleOrUndefined (el.getAttribute "role")
    bounds := { x := el.rect.x + o.frameOffsetX, y := el.rect.y + o.frameOffsetY,
                width := el.rect.width, height := el.rect.height } }

/-- `if (role) html += \x7b role="..." \x7d` style fragment piece. -/
def attrFragment (attrName : String) (v : Option String) : String :=
  match v with
  | some s => if s = "" then "" else s!" {attrName}=\"{s}\""
  | none => ""

/-- The compact tag-like fragment pushed onto `distilledHTML`. -/
def buildFragment (o : EvalOpts) (el : DomElement) (mcpId : Nat) : String :=
  let text := extractText o.maxTextLength el
  let tagName := jsToLower el.tagName
  let html := s!"<{tagName}" ++ s!" id=\"{mcpId}\""
    ++ attrFragment "role" (el.getAttribute "role")
    ++ attrFragment "type" (el.getAttribute "type")
    ++ attrFragment "name" (el.getAttribute "name")
  if text = "" then html ++ " />" else html ++ s!">{text}</{tagName}>"

/-- `el.setAttribute('data-mcp-id', String(mcpId))`. -/
def setMcpId (el : DomElement) (mcpId : Nat) : DomElement :=
  { el with attrs := setAttr el.attrs "data-mcp-id" (toString mcpId) }

/-- Body of the per-element callback: either the element is rejected by a
filter step (`return` before any mutation) or it is marked, the counter
advances, and one fragment plus one metadata row are emitted. -/
def processElement (o : EvalOpts) (viewportHeight scrollY : Int) (idCounter : Nat)
    (el : DomElement) : DomElement × Nat × Option (String × ElementMetadata) :=
  if retainElement o viewportHeight scrollY el then
    (setMcpId el idCounter, idCounter + 1,
      some (buildFragment o el idCounter, buildMeta o el idCounter))
  else
    (el, idCounter, none)

/-- The `elements.forEach` loop, threading `idCounter` left to right and
collecting the updated elements, fragments and metadata in document order. -/
def processElements (o : EvalOpts) (viewportHeight scrollY : Int) (idCounter : Nat) :
    List DomElement → List DomElement × List String × List ElementMetadata × Nat
  | [] => ([], [], [], idCounter)
  | el :: rest =>
    let step := processElement o viewportHeight scrollY idCounter el
    let tail := processElements o viewportHeight scrollY step.2.1 rest
    match step.2.2 with
    | some hm => (step.1 :: tail.1, hm.1 :: tail.2.1, hm.2 :: tail.2.2.1, tail.2.2.2)
    | none => (step.1 :: tail.1, tail.2.1, tail.2.2.1, tail.2.2.2)

/-- The document of one frame as the injected script observes it:
`window.innerHeight`, `window.scrollY`, and the candidate list returned by
`document.querySelectorAll(interactiveSelectors.join(','))` in document
order. -/
structure FrameDoc where
  viewportHeight : Int
  scrollY : Int
  elements : List DomElement
deriving DecidableEq

/-- The serialized value returned by `frame.evaluate`. -/
structure FrameEvalResult where
  distilledHTML : List String
  elementMap : List ElementMetadata
  totalElements : Nat
  nextId : Nat
deriving DecidableEq

/-- The `frame.evaluate` body, plus the (explicit) mutation of the frame's
elements. -/
def frameEvaluate (o : EvalOpts) (fd : FrameDoc) : FrameEvalResult × FrameDoc :=
  let r := processElements o fd.viewportHeight fd.scrollY o.startId fd.elements
  ({ distilledHTML := r.2.1, elementMap := r.2.2.1,
     totalElements := fd.elements.length, nextId := r.2.2.2 },
   { fd with elements := r.1 })

/-- The ancestor-walk of the source (`while (currentFrame !== page.mainFrame())`):
each link contributes its boundary element's `boundingBox()` (position of the
embedding element within its parent frame, per the consumed host interface),
or nothing when `frameElement()` / `boundingBox()` fails or is null. -/
def computeFrameOffset : List (Option Rect) → Int × Int
  | [] => (0, 0)
  | link :: rest =>
    let acc := computeFrameOffset rest
    match link with
    | some box => (box.x + acc.1, box.y + acc.2)
    | none => acc

/-- One handle from `page.frames()`.  `detached` is `frame.isDetached()` at
enumeration time; `ancestorBoxes` is the chain of ancestor boundary boxes from
the frame up to (excluding) the main frame; `evalError = some e` models
`frame.evaluate` rejecting with error `e` (frame detached mid-pass,
navigation, timeout), in which case the browser-side document is untouched. -/
structure PageFrame where
  detached : Bool
  ancestorBoxes : List (Option Rect)
  evalError : Option String
  doc : FrameDoc
deriving DecidableEq

/-- `page.frames()` result: the main frame first, then the nested frames in
traversal order. -/
structure SnapshotPage where
  frames : List PageFrame
deriving DecidableEq

/-- Interface `SnapshotOptions` (all fields optional). -/
structure SnapshotOptions where
  viewportBuffer : Option Int := none
  maxTextLength : Option Nat := none
  includeHidden : Option Bool := none
  minElementSize : Option (Int × Int) := none
deriving DecidableEq

/-- The `opts` record after `??` defaults are applied. -/
structure ResolvedOptions where
  viewportBuffer : Int
  maxTextLength : Nat
  includeHidden : Bool
  minWidth : Int
  minHeight : Int
deriving DecidableEq

def applyDefaults (options : SnapshotOptions) : ResolvedOptions :=
  { viewportBuffer := options.viewportBuffer.getD 1000
    maxTextLength := options.maxTextLength.getD 100
    includeHidden := options.includeHidden.getD false
    minWidth := (options.minElementSize.map Prod.fst).getD 1
    minHeight := (options.minElementSize.map Prod.snd).getD 1 }

def mkEvalOpts (r : ResolvedOptions) (startId : Nat) (offset : Int × Int) : EvalOpts :=
  { viewportBuffer := r.viewportBuffer
    maxTextLength := r.maxTextLength
    includeHidden := r.includeHidden
    minWidth := r.minWidth
    minHeight := r.minHeight
    startId
    frameOffsetX := offset.1
    frameOffsetY := offset.2 }

/-- `console.warn` text of the outer per-frame catch. -/
def frameErrorWarning (e : String) : String := s!"Error processing frame: {e}"

/-- The `for (const frame of allFrames)` loop: detached frames are skipped
silently, a frame whose evaluation rejects is skipped with one warning and
leaves the shared counter untouched, and a processed frame advances the
counter to `frameResult.nextId`.  Returns the updated frames, the per-frame
results in traversal order, the warnings, and the final counter. -/
def processFrames (r : ResolvedOptions) (counter : Nat) :
    List PageFrame → List PageFrame × List FrameEvalResult × List String × Nat
  | [] => ([], [], [], counter)
  | f :: rest =>
    if f.detached then
      let tail := processFrames r counter rest
      (f :: tail.1, tail.2.1, tail.2.2.1, tail.2.2.2)
    else
      match f.evalError with
      | some e =>
        let tail := processFrames r counter rest
        (f :: tail.1, tail.2.1, frameErrorWarning e :: tail.2.2.1, tail.2.2.2)
      | none =>
        let offset := computeFrameOffset f.ancestorBoxes
        let fr := frameEvaluate (mkEvalOpts r counter offset) f.doc
        let tail := processFrames r fr.1.nextId rest
        ({ f with doc := fr.2 } :: tail.1, fr.1 :: tail.2.1, tail.2.2.1, tail.2.2.2)

/-- Interface `OptimizedDOMResult` of the source. -/
structure OptimizedDOMResult where
  distilledHTML : String
  elementMap : List ElementMetadata
  totalElements : Nat
  visibleElements : Nat
deriving DecidableEq

/-- `captureOptimizedSnapshot`, with the browser-side mutation and the
warnings made explicit: returns the merged result, the updated page, and the
recorded warnings. -/
def captureOptimizedSnapshotFull (page : SnapshotPage) (options : SnapshotOptions) :
    OptimizedDOMResult × SnapshotPage × List String :=
  let opts := applyDefaults options
  let pf := processFrames opts 1 page.frames
  let results := pf.2.1
  let mergedDistilledHTML := (results.map FrameEvalResult.distilledHTML).flatten
  let mergedElementMap := (results.map FrameEvalResult.elementMap).flatten
  ({ distilledHTML := String.intercalate "\n" mergedDistilledHTML
     elementMap := mergedElementMap
     totalElements := (results.map FrameEvalResult.totalElements).sum
     visibleElements := mergedElementMap.length },
   { frames := pf.1 }, pf.2.2.1)

/-- The value the source function resolves with. -/
def captureOptimizedSnapshot (page : SnapshotPage) (options : SnapshotOptions) :
    OptimizedDOMResult :=
  (captureOptimizedSnapshotFull page options).1

/-- The whole distill call including frame enumeration: `page.frames()` itself
may throw (the root page is gone), which rejects the promise; once the frame
list is obtained the function always resolves (per-frame failures are caught
inside the loop). -/
def captureOptimizedSnapshotE (framesResult : Except String SnapshotPage)
    (options : SnapshotOptions) : Except String OptimizedDOMResult :=
  match framesResult with
  | .error e => .error e
  | .ok page => .ok (captureOptimizedSnapshot page options)

/-- `getElementByMcpId` as documented in TOKEN_OPTIMIZATION_GUIDE.md
(`this.page.locator('[data-mcp-id=...]')`): a page-level locator evaluates
its CSS selector in the main frame only (a CSS query does not pierce iframe
boundaries), and no frame context accompanies the identifier.  The returned
list is the set of elements the locator matches, in document order; acting on
the locator requires exactly one match. -/
def hasMarker (mcpId : Nat) (el : DomElement) : Bool :=
  decide (el.getAttribute "data-mcp-id" = some (toString mcpId))

def getElementByMcpId (page : SnapshotPage) (mcpId : Nat) : List DomElement :=
  match page.frames with
  | [] => []
  | mainFrame :: _ => mainFrame.doc.elements.filter (hasMarker mcpId)

/-- The two addressing schemes an action call may use. -/
inductive Addressing where
  | mcpId (id : Nat)
  | ref (r : String)
deriving DecidableEq

def addressingErrorMsg : String := "Either ref or mcpId must be provided"

/-- The addressing dispatch shared verbatim by the `click`, `hover` and
`selectOption` handlers: `if (params.mcpId !== undefined) ... else if
(params.ref) ... else throw`.  It runs before any locator is used, so an
`error` result means the handler throws before touching the page. -/
def selectAddressing (mcpId : Option Nat) (ref : Option String) :
    Except String Addressing :=
  match mcpId with
  | some id => .ok (.mcpId id)
  | none =>
    match ref with
    | some r => if r = "" then .error addressingErrorMsg else .ok (.ref r)
    | none => .error addressingErrorMsg

def dragAddressingErrorMsg : String := "Either both refs or both mcpIds must be provided"

/-- The addressing dispatch of the `drag` handler: `if (startMcpId !==
undefined && endMcpId !== undefined) ... else if (startRef && endRef) ...
else throw`. -/
def selectDragAddressing (startMcpId endMcpId : Option Nat)
    (startRef endRef : Option String) : Except String (Addressing × Addressing) :=
  match startMcpId, endMcpId with
  | some s, some e => .ok (.mcpId s, .mcpId e)
  | _, _ =>
    match startRef, endRef with
    | some a, some b =>
      if a = "" ∨ b = "" then .error dragAddressingErrorMsg else .ok (.ref a, .ref b)
    | _, _ => .error dragAddressingErrorMsg

/-! ### Legacy single-frame traversal (`captureOptimizedSnapshotSingleFrame`)

`collectAllElements` walks same-origin iframes recursively through
`contentDocument`.  Documents are modelled as nodes of an arbitrary graph
`g : Nat → SFDoc`; a document's iframe may point to any node, so cyclic
frame graphs are expressible.  Lean accepts the definition only with the
termination measure below, which certifies that the bounded-depth recursion
terminates on every graph, cyclic ones included. -/

/-- What accessing `iframe.contentDocument` yields. -/
inductive IframeAccess where
  | throws
  | nullDoc
  | doc (i : Nat)
deriving DecidableEq

/-- An `<iframe>` element of the legacy walk. -/
structure SFIframe where
  rect : Rect
  src : String
  access : IframeAccess
deriving DecidableEq

/-- A document of the legacy walk: its candidate elements and its iframes. -/
structure SFDoc where
  elements : List DomElement
  iframes : List SFIframe
deriving DecidableEq

def MAX_DEPTH : Nat := 10

def deepNestingWarning : String :=
  s!"iframe nesting too deep (>{MAX_DEPTH}), stopping recursion"

def crossOriginWarning (iframe : SFIframe) : String :=
  let src := jsOrString iframe.src "(no src)"
  s!"Cannot access iframe (cross-origin): {src}"

mutual

/-- `collectAllElements(doc, selectors, iframeChain, depth)`: above
`MAX_DEPTH` the descent is truncated with a warning; otherwise the document's
own candidates are tagged with the current iframe chain and all iframes are
walked recursively. -/
def collectAllElements (g : Nat → SFDoc) (doc : SFDoc) (iframeChain : List SFIframe)
    (depth : Nat) : List (DomElement × List SFIframe) × List String :=
  if depth > MAX_DEPTH then
    ([], [deepNestingWarning])
  else
    let own := doc.elements.map (fun el => (el, iframeChain))
    let sub := collectFromIframes g doc.iframes iframeChain depth
    (own ++ sub.1, sub.2)
termination_by (MAX_DEPTH + 1 - depth, 0)

/-- The `Array.from(iframes).forEach` loop: a throwing `contentDocument`
(cross-origin) is skipped with a warning, a null one silently, an accessible
one recursed into with the chain extended. -/
def collectFromIframes (g : Nat → SFDoc) (iframes : List SFIframe)
    (iframeChain : List SFIframe) (depth : Nat) :
    List (DomElement × List SFIframe) × List String :=
  match iframes with
  | [] => ([], [])
  | iframe :: rest =>
    let here :=
      match iframe.access with
      | .throws => (([] : List (DomElement × List SFIframe)), [crossOriginWarning iframe])
      | .nullDoc => ([], [])
      | .doc i => collectAllElements g (g i) (iframeChain ++ [iframe]) (depth + 1)
    let there := collectFromIframes g rest iframeChain depth
    (here.1 ++ there.1, here.2 ++ there.2)
termination_by (MAX_DEPTH - depth, iframes.length + 1)

end

/-! ### Decimal representation round-trip

`setMcpId` stores `String(mcpId)`; resolving an identifier compares that
string.  Distinct identifiers carry distinct strings because the decimal
representation can be evaluated back. -/

def digitVal (c : Char) : Nat := c.toNat - 48

def valOfDigits (l : List Char) : Nat := l.foldl (fun a c => 10 * a + digitVal c) 0

theorem digitVal_digitChar (d : Nat) (h : d < 10) : digitVal (Nat.digitChar d) = d := by
  interval_cases d <;> rfl

theorem toDigitsCore_append (fuel : Nat) :
    ∀ n ds, Nat.toDigitsCore 10 fuel n ds = Nat.toDigitsCore 10 fuel n [] ++ ds := by
  induction fuel with
  | zero => intro n ds; simp [Nat.toDigitsCore]
  | succ fuel ih =>
    intro n ds
    simp only [Nat.toDigitsCore]
    by_cases h : n / 10 = 0
    · simp [h]
    · simp only [h, if_false]
      rw [ih (n / 10) (Nat.digitChar (n % 10) :: ds), ih (n / 10) [Nat.digitChar (n % 10)]]
      simp

theorem valOfDigits_toDigitsCore (n : Nat) :
    ∀ fuel, n < fuel → valOfDigits (Nat.toDigitsCore 10 fuel n []) = n := by
  induction n using Nat.strong_induction_on with
  | _ n ih =>
    intro fuel hfuel
    match fuel, hfuel with
    | fuel + 1, hfuel =>
      simp only [Nat.toDigitsCore]
      by_cases h : n / 10 = 0
      · have hn : n < 10 := by omega
        simp only [h, if_true, valOfDigits, List.foldl]
        rw [digitVal_digitChar _ (Nat.mod_lt _ (by omega))]
        omega
      · have hn10 : n / 10 < n := Nat.div_lt_self (by omega) (by omega)
        simp only [h, if_false]
        rw [toDigitsCore_append]
        have hv : valOfDigits (Nat.toDigitsCore 10 fuel (n / 10) []) = n / 10 :=
          ih (n / 10) hn10 fuel (by omega)
        simp only [valOfDigits, List.foldl_append, List.foldl] at hv ⊢
        rw [hv, digitVal_digitChar _ (Nat.mod_lt _ (by omega))]
        omega

theorem valOfDigits_toDigits (n : Nat) : valOfDigits (Nat.toDigits 10 n) = n :=
  valOfDigits_toDigitsCore n (n + 1) (Nat.lt_succ_self n)

theorem natToString_injective : Function.Injective (fun n : Nat => toString n) := by
  intro m n h
  have hd : (Nat.toDigits 10 m) = (Nat.toDigits 10 n) := by
    have : (Nat.toDigits 10 m).asString = (Nat.toDigits 10 n).asString := h
    simpa [List.asString, String.ext_iff] using this
  calc m = valOfDigits (Nat.toDigits 10 m) := (valOfDigits_toDigits m).symm
    _ = valOfDigits (Nat.toDigits 10 n) := by rw [hd]
    _ = n := valOfDigits_toDigits n

/-! ### Supporting lemmas about the embedding -/

theorem getAttr_setAttr_self (attrs : List (String × String)) (k v : String) :
    getAttr (setAttr attrs k v) k = some v := by
  induction attrs with
  | nil => simp [getAttr, setAttr]
  | cons kv rest ih =>
    obtain ⟨k', w⟩ := kv
    by_cases h : k' = k
    · simp [getAttr, setAttr, h]
    · simp [getAttr, setAttr, h, ih]

theorem getAttribute_setMcpId (el : DomElement) (m : Nat) :
    (setMcpId el m).getAttribute "data-mcp-id" = some (toString m) := by
  simp [setMcpId, DomElement.getAttribute, getAttr_setAttr_self]

theorem hasMarker_setMcpId_self (el : DomElement) (n : Nat) :
    hasMarker n (setMcpId el n) = true := by
  simp [hasMarker, getAttribute_setMcpId]

theorem hasMarker_setMcpId_ne (el : DomElement) {m n : Nat} (h : m ≠ n) :
    hasMarker n (setMcpId el m) = false := by
  simp only [hasMarker, getAttribute_setMcpId, decide_eq_false_iff_not]
  intro hcontra
  exact h (natToString_injective (by simpa using hcontra))

theorem hasMarker_of_fresh {el : DomElement} (n : Nat)
    (h : el.getAttribute "data-mcp-id" = none) : hasMarker n el = false := by
  simp [hasMarker, h]

/-- Combined bookkeeping facts about the per-frame element loop:
the emitted identifiers are exactly `startId, startId+1, …` in document
order, the returned counter is the start plus the number of retained
elements, at most every discovered element is retained, and the updated
element list has the same shape as the original. -/
theorem processElements_facts (o : EvalOpts) (vh sy : Int) :
    ∀ (els : List DomElement) (c : Nat),
      (processElements o vh sy c els).2.2.1.map ElementMetadata.mcpId
          = List.range' c (processElements o vh sy c els).2.2.1.length
        ∧ (processElements o vh sy c els).2.2.2
          = c + (processElements o vh sy c els).2.2.1.length
        ∧ (processElements o vh sy c els).2.2.1.length ≤ els.length
        ∧ (processElements o vh sy c els).1.length = els.length := by
  intro els
  induction els with
  | nil => intro c; simp [processElements]
  | cons el rest ih =>
    intro c
    by_cases h : retainElement o vh sy el
    · obtain ⟨ih1, ih2, ih3, ih4⟩ := ih (c + 1)
      simp only [processElements, processElement, h, if_true]
      refine ⟨?_, ?_, ?_, ?_⟩
      · simp [buildMeta, ih1, List.range'_succ]
      · simp [ih2]; omega
      · simpa using Nat.succ_le_succ ih3
      · simpa using ih4
    · obtain ⟨ih1, ih2, ih3, ih4⟩ := ih c
      simp only [processElements, processElement, h, if_false]
      refine ⟨ih1, ih2, ?_, by simpa using ih4⟩
      exact Nat.le_succ_of_le ih3

theorem processElements_cons_retained (o : EvalOpts) (vh sy : Int) (c : Nat)
    (el : DomElement) (rest : List DomElement) (h : retainElement o vh sy el = true) :
    processElements o vh sy c (el :: rest) =
      (setMcpId el c :: (processElements o vh sy (c + 1) rest).1,
       buildFragment o el c :: (processElements o vh sy (c + 1) rest).2.1,
       buildMeta o el c :: (processElements o vh sy (c + 1) rest).2.2.1,
       (processElements o vh sy (c + 1) rest).2.2.2) := by
  simp [processElements, processElement, h]

theorem processElements_cons_skipped (o : EvalOpts) (vh sy : Int) (c : Nat)
    (el : DomElement) (rest : List DomElement) (h : retainElement o vh sy el = false) :
    processElements o vh sy c (el :: rest) =
      (el :: (processElements o vh sy c rest).1,
       (processElements o vh sy c rest).2.1,
       (processElements o vh sy c rest).2.2.1,
       (processElements o vh sy c rest).2.2.2) := by
  simp [processElements, processElement, h]

/-- Resolution bookkeeping for one frame.  Starting from a document whose
candidates carry no pre-existing `data-mcp-id` marker: for every identifier
`n` issued by the loop there is a unique source element `el` such that the
updated document's elements bearing the marker string of `n` are exactly
`[setMcpId el n]`, and `el`'s metadata row is emitted; for every `n` outside
the issued range no element bears its marker. -/
theorem processElements_markers (o : EvalOpts) (vh sy : Int) :
    ∀ (els : List DomElement) (c : Nat),
      (∀ el ∈ els, el.getAttribute "data-mcp-id" = none) →
      ∀ n : Nat,
        (c ≤ n ∧ n < (processElements o vh sy c els).2.2.2 →
          ∃ el, el ∈ els ∧
            (processElements o vh sy c els).1.filter (hasMarker n) = [setMcpId el n] ∧
            buildMeta o el n ∈ (processElements o vh sy c els).2.2.1)
        ∧ (¬(c ≤ n ∧ n < (processElements o vh sy c els).2.2.2) →
          (processElements o vh sy c els).1.filter (hasMarker n) = []) := by
  intro els
  induction els with
  | nil =>
    intro c _ n
    refine ⟨fun hrange => ?_, fun _ => by simp [processElements]⟩
    exfalso
    simp [processElements] at hrange
    omega
  | cons el rest ih =>
    intro c hfresh n
    have hfreshel := hfresh el (List.mem_cons_self el rest)
    have hfreshrest : ∀ e ∈ rest, e.getAttribute "data-mcp-id" = none :=
      fun e he => hfresh e (List.mem_cons_of_mem el he)
    by_cases h : retainElement o vh sy el
    · rw [processElements_cons_retained o vh sy c el rest h]
      dsimp only
      have hnext := (processElements_facts o vh sy rest (c + 1)).2.1
      by_cases hn : n = c
      · constructor
        · intro _
          refine ⟨el, List.mem_cons_self el rest, ?_, ?_⟩
          · rw [List.filter_cons_of_pos (by rw [hn]; simp [hasMarker_setMcpId_self])]
            have hrest := (ih (c + 1) hfreshrest n).2 (by omega)
            rw [hrest]
            rw [hn]
          · rw [hn]; exact List.mem_cons_self _ _
        · intro hcontra
          exfalso
          exact hcontra ⟨by omega, by omega⟩
      · have hskip : hasMarker n (setMcpId el c) = false :=
          hasMarker_setMcpId_ne el (Ne.symm hn)
        rw [List.filter_cons_of_neg (by simp [hskip])]
        obtain ⟨ihin, ihout⟩ := ih (c + 1) hfreshrest n
        constructor
        · intro hrange
          obtain ⟨e, hmem, hfilter, hmeta⟩ := ihin ⟨by omega, hrange.2⟩
          exact ⟨e, List.mem_cons_of_mem el hmem, hfilter, List.mem_cons_of_mem _ hmeta⟩
        · intro hcontra
          exact ihout (by omega)
    · rw [processElements_cons_skipped o vh sy c el rest (by simpa using h)]
      dsimp only
      have hskip : hasMarker n el = false := hasMarker_of_fresh n hfreshel
      rw [List.filter_cons_of_neg (by simp [hskip])]
      obtain ⟨ihin, ihout⟩ := ih c hfreshrest n
      constructor
      · intro hrange
        obtain ⟨e, hmem, hfilter, hmeta⟩ := ihin hrange
        exact ⟨e, List.mem_cons_of_mem el hmem, hfilter, hmeta⟩
      · exact ihout

theorem frameEvaluate_elementMap (o : EvalOpts) (fd : FrameDoc) :
    (frameEvaluate o fd).1.elementMap
      = (processElements o fd.viewportHeight fd.scrollY o.startId fd.elements).2.2.1 := rfl

theorem frameEvaluate_nextId (o : EvalOpts) (fd : FrameDoc) :
    (frameEvaluate o fd).1.nextId
      = (processElements o fd.viewportHeight fd.scrollY o.startId fd.elements).2.2.2 := rfl

theorem frameEvaluate_totalElements (o : EvalOpts) (fd : FrameDoc) :
    (frameEvaluate o fd).1.totalElements = fd.elements.length := rfl

theorem frameEvaluate_doc_elements (o : EvalOpts) (fd : FrameDoc) :
    (frameEvaluate o fd).2.elements
      = (processElements o fd.viewportHeight fd.scrollY o.startId fd.elements).1 := rfl

theorem mkEvalOpts_startId (r : ResolvedOptions) (c : Nat) (offset : Int × Int) :
    (mkEvalOpts r c offset).startId = c := rfl

theorem processFrames_cons_detached (r : ResolvedOptions) (c : Nat) (f : PageFrame)
    (rest : List PageFrame) (h : f.detached = true) :
    processFrames r c (f :: rest) =
      (f :: (processFrames r c rest).1, (processFrames r c rest).2.1,
       (processFrames r c rest).2.2.1, (processFrames r c rest).2.2.2) := by
  simp [processFrames, h]

theorem processFrames_cons_error (r : ResolvedOptions) (c : Nat) (f : PageFrame)
    (rest : List PageFrame) (e : String) (hd : f.detached = false)
    (he : f.evalError = some e) :
    processFrames r c (f :: rest) =
      (f :: (processFrames r c rest).1, (processFrames r c rest).2.1,
       frameErrorWarning e :: (processFrames r c rest).2.2.1,
       (processFrames r c rest).2.2.2) := by
  simp [processFrames, hd, he]

theorem processFrames_cons_ok (r : ResolvedOptions) (c : Nat) (f : PageFrame)
    (rest : List PageFrame) (hd : f.detached = false) (he : f.evalError = none) :
    processFrames r c (f :: rest) =
      ({ f with doc := (frameEvaluate (mkEvalOpts r c (computeFrameOffset f.ancestorBoxes)) f.doc).2 }
          :: (processFrames r
                (frameEvaluate (mkEvalOpts r c (computeFrameOffset f.ancestorBoxes)) f.doc).1.nextId
                rest).1,
       (frameEvaluate (mkEvalOpts r c (computeFrameOffset f.ancestorBoxes)) f.doc).1
          :: (processFrames r
                (frameEvaluate (mkEvalOpts r c (computeFrameOffset f.ancestorBoxes)) f.doc).1.nextId
                rest).2.1,
       (processFrames r
          (frameEvaluate (mkEvalOpts r c (computeFrameOffset f.ancestorBoxes)) f.doc).1.nextId
          rest).2.2.1,
       (processFrames r
          (frameEvaluate (mkEvalOpts r c (computeFrameOffset f.ancestorBoxes)) f.doc).1.nextId
          rest).2.2.2) := by
  simp [processFrames, hd, he]

/-- Bookkeeping facts about the frame loop: the merged identifiers are
exactly `c, c+1, …` in frame-then-document order, the final counter is the
start plus the merged retained count, and the retained count is at most the
sum of the per-frame discovered counts. -/
theorem processFrames_facts (r : ResolvedOptions) :
    ∀ (frames : List PageFrame) (c : Nat),
      (((processFrames r c frames).2.1.map FrameEvalResult.elementMap).flatten.map
            ElementMetadata.mcpId
          = List.range' c
            ((processFrames r c frames).2.1.map FrameEvalResult.elementMap).flatten.length)
        ∧ (processFrames r c frames).2.2.2
          = c + ((processFrames r c frames).2.1.map FrameEvalResult.elementMap).flatten.length
        ∧ ((processFrames r c frames).2.1.map FrameEvalResult.elementMap).flatten.length
          ≤ ((processFrames r c frames).2.1.map FrameEvalResult.totalElements).sum := by
  intro frames
  induction frames with
  | nil => intro c; simp [processFrames]
  | cons f rest ih =>
    intro c
    by_cases hd : f.detached
    · rw [processFrames_cons_detached r c f rest hd]
      exact ih c
    · match he : f.evalError with
      | some e =>
        rw [processFrames_cons_error r c f rest e (by simpa using hd) he]
        exact ih c
      | none =>
        rw [processFrames_cons_ok r c f rest (by simpa using hd) he]
        dsimp only
        set o := mkEvalOpts r c (computeFrameOffset f.ancestorBoxes) with ho
        have hstart : o.startId = c := rfl
        have hpe := processElements_facts o f.doc.viewportHeight f.doc.scrollY
          f.doc.elements c
        set pe := processElements o f.doc.viewportHeight f.doc.scrollY c f.doc.elements
          with hpe_def
        have hmap : (frameEvaluate o f.doc).1.elementMap = pe.2.2.1 := by
          rw [frameEvaluate_elementMap, hstart]
        have hnext : (frameEvaluate o f.doc).1.nextId = pe.2.2.2 := by
          rw [frameEvaluate_nextId, hstart]
        obtain ⟨ihm, ihc, ihto⟩ := ih (frameEvaluate o f.doc).1.nextId
        rw [List.map_cons, List.flatten_cons, List.map_append, List.length_append]
        rw [hmap]
        refine ⟨?_, ?_, ?_⟩
        · rw [hpe.1, ihm, hnext, hpe.2.1]
          rw [List.range'_append_1, Nat.add_comm]
        · rw [ihc, hnext, hpe.2.1]
          omega
        · rw [List.map_cons, List.sum_cons, frameEvaluate_totalElements]
          have h1 : pe.2.2.1.length ≤ f.doc.elements.length := hpe.2.2.1
          omega

/-! ### Concrete fixtures -/

/-- A normally visible button (`<button>OK</button>`). -/
def visibleButton : DomElement :=
  { tagName := "BUTTON", rect := { x := 10, y := 40, width := 120, height := 30 },
    display := "inline-block", visibility := "visible", opacity := 1,
    innerText := "OK", value := "", attrs := [] }

/-- The same button fully hidden with `display: none`. -/
def hiddenButton : DomElement :=
  { visibleButton with display := "none", innerText := "Hidden" }

def twoButtonDoc : FrameDoc :=
  { viewportHeight := 800, scrollY := 0, elements := [hiddenButton, visibleButton] }

def twoButtonFrame : PageFrame :=
  { detached := false, ancestorBoxes := [], evalError := none, doc := twoButtonDoc }

/-- A single-frame page with one hidden and one visible button. -/
def twoButtonPage : SnapshotPage := { frames := [twoButtonFrame] }

def frameAEmpty : PageFrame :=
  { detached := false,
    ancestorBoxes := [some { x := 10, y := 20, width := 800, height := 600 }],
    evalError := none, doc := { viewportHeight := 600, scrollY := 0, elements := [] } }

def elementInB : DomElement :=
  { visibleButton with rect := { x := 5, y := 5, width := 20, height := 20 } }

/-- Frame B, offset (50, 100) within frame A, which is offset (10, 20)
within the main frame. -/
def frameB : PageFrame :=
  { detached := false,
    ancestorBoxes := [some { x := 50, y := 100, width := 300, height := 200 },
                      some { x := 10, y := 20, width := 800, height := 600 }],
    evalError := none,
    doc := { viewportHeight := 200, scrollY := 0, elements := [elementInB] } }

def emptyMainFrame : PageFrame :=
  { detached := false, ancestorBoxes := [], evalError := none,
    doc := { viewportHeight := 800, scrollY := 0, elements := [] } }

/-- Main frame, frame A, frame B: the three-level nesting of the spec. -/
def nestedPage : SnapshotPage := { frames := [emptyMainFrame, frameAEmpty, frameB] }

def O6 : EvalOpts :=
  { viewportBuffer := 1000, maxTextLength := 100, includeHidden := false,
    minWidth := 1, minHeight := 1, startId := 1, frameOffsetX := 0, frameOffsetY := 0 }

/-- A button whose absolute bottom sits exactly at `scrollY - buffer`. -/
def boundaryButton : DomElement :=
  { visibleButton with rect := { x := 10, y := -1020, width := 120, height := 20 } }

def O7 : EvalOpts := { O6 with includeHidden := true }

/-- A zero-width button. -/
def tinyButton : DomElement :=
  { visibleButton with rect := { x := 0, y := 0, width := 0, height := 30 } }

/-- A self-referential frame graph: document 0 embeds itself. -/
def cyclicIframe : SFIframe :=
  { rect := { x := 0, y := 0, width := 100, height := 100 }, src := "self",
    access := .doc 0 }

def cyclicDoc : SFDoc := { elements := [visibleButton], iframes := [cyclicIframe] }

def cyclicGraph : Nat → SFDoc := fun _ => cyclicDoc

theorem computeFrameOffset_eq_sum (chain : List (Option Rect)) :
    computeFrameOffset chain
      = (((chain.filterMap id).map Rect.x).sum, ((chain.filterMap id).map Rect.y).sum) := by
  induction chain with
  | nil => simp [computeFrameOffset]
  | cons link rest ih =>
    cases link with
    | none => simpa [computeFrameOffset] using ih
    | some box => simp [computeFrameOffset, ih]

theorem getAttr_setAttr_ne (attrs : List (String × String)) (k k' v : String)
    (h : k' ≠ k) : getAttr (setAttr attrs k v) k' = getAttr attrs k' := by
  induction attrs with
  | nil => simp [getAttr, setAttr, Ne.symm h]
  | cons kv rest ih =>
    obtain ⟨ka, w⟩ := kv
    by_cases hk : ka = k
    · subst hk
      simp [setAttr, getAttr, Ne.symm h]
    · simp [setAttr, hk, getAttr, ih]

/-! ### Claims -/

/-- Claim C1: in every distillation pass the identifier counter is a single
counter shared across all frames, starting at 1 and incrementing by exactly
1 per retained element; hence the identifiers of the output `elementMap` are
exactly `1, 2, …, visibleElements` in frame-then-document order, strictly
increasing and pairwise distinct. -/
theorem claim1_id_allocation (page : SnapshotPage) (options : SnapshotOptions) :
    (captureOptimizedSnapshot page options).elementMap.map ElementMetadata.mcpId
        = List.range' 1 (captureOptimizedSnapshot page options).visibleElements
      ∧ List.Pairwise (fun a b => a < b)
          ((captureOptimizedSnapshot page options).elementMap.map ElementMetadata.mcpId)
      ∧ ((captureOptimizedSnapshot page options).elementMap.map ElementMetadata.mcpId).Nodup := by
  have hmap : (captureOptimizedSnapshot page options).elementMap.map ElementMetadata.mcpId
      = List.range' 1 (captureOptimizedSnapshot page options).visibleElements :=
    (processFrames_facts (applyDefaults options) page.frames 1).1
  refine ⟨hmap, ?_, ?_⟩
  · rw [hmap]; exact List.pairwise_lt_range' 1 _
  · rw [hmap]; exact List.nodup_range' 1 _

/-- Claim C5: the cumulative frame offset is the additive sum of the
accessible ancestor boundary boxes' positions, an inaccessible link
contributes zero, and in the concrete three-level nesting (B at (50,100) in
A, A at (10,20) in the main frame) an element at local (5,5) in B reports
absolute bounds (65,125). -/
theorem claim5_offsets :
    (∀ chain : List (Option Rect),
        computeFrameOffset chain
          = (((chain.filterMap id).map Rect.x).sum, ((chain.filterMap id).map Rect.y).sum))
      ∧ (∀ chain : List (Option Rect),
          computeFrameOffset (none :: chain) = computeFrameOffset chain)
      ∧ computeFrameOffset frameB.ancestorBoxes = (60, 120)
      ∧ (captureOptimizedSnapshot nestedPage {}).elementMap.map
          (fun m => (m.bounds.x, m.bounds.y)) = [(65, 125)] := by
  refine ⟨computeFrameOffset_eq_sum, fun chain => rfl, by decide, by decide⟩

/-- Claim C6: with the override flag unset (and the size and style checks
passed), retention is decided by a boundary-inclusive viewport test on the
absolute vertical positions `top/bottom + scrollY + frameOffsetY`: touching
`scrollY - buffer` or `scrollY + viewportHeight + buffer` exactly retains
the element, any pixel further outside either boundary excludes it. -/
theorem claim6_viewport_boundary (o : EvalOpts) (vh sy : Int) (c : Nat) (el : DomElement)
    (hov : o.includeHidden = false)
    (hsz : passesSizeCheck o.minWidth o.minHeight el.rect = true)
    (hst : isStyleHidden el = false) :
    ((processElement o vh sy c el).2.2.isSome = retainElement o vh sy el)
      ∧ (retainElement o vh sy el = true
          ↔ (sy - o.viewportBuffer ≤ el.rect.bottom + sy + o.frameOffsetY
              ∧ el.rect.top + sy + o.frameOffsetY ≤ sy + vh + o.viewportBuffer))
      ∧ (0 ≤ el.rect.height → 0 ≤ o.viewportBuffer → 0 ≤ vh →
          ((el.rect.bottom + sy + o.frameOffsetY = sy - o.viewportBuffer →
              retainElement o vh sy el = true)
            ∧ (el.rect.top + sy + o.frameOffsetY = sy + vh + o.viewportBuffer →
              retainElement o vh sy el = true)))
      ∧ (el.rect.bottom + sy + o.frameOffsetY < sy - o.viewportBuffer →
          retainElement o vh sy el = false)
      ∧ (sy + vh + o.viewportBuffer < el.rect.top + sy + o.frameOffsetY →
          retainElement o vh sy el = false) := by
  have hiff : retainElement o vh sy el = true
      ↔ (sy - o.viewportBuffer ≤ el.rect.bottom + sy + o.frameOffsetY
          ∧ el.rect.top + sy + o.frameOffsetY ≤ sy + vh + o.viewportBuffer) := by
    simp only [retainElement, hov, hsz, hst, passesViewportCheck, Rect.top, Rect.bottom,
      Bool.true_and, Bool.false_or, Bool.not_false, Bool.not_or, Bool.and_eq_true,
      Bool.not_eq_true', decide_eq_false_iff_not, not_lt, Bool.not_eq_false']
  refine ⟨?_, hiff, ?_, ?_, ?_⟩
  · by_cases h : retainElement o vh sy el <;> simp [processElement, h]
  · intro hh hb hv
    constructor
    · intro heq
      rw [hiff]
      simp only [Rect.top, Rect.bottom] at heq ⊢
      constructor <;> omega
    · intro heq
      rw [hiff]
      simp only [Rect.top, Rect.bottom] at heq ⊢
      constructor <;> omega
  · intro hlt
    cases hre : retainElement o vh sy el with
    | false => rfl
    | true =>
      obtain ⟨h1, h2⟩ := hiff.mp hre
      exfalso
      simp only [Rect.top, Rect.bottom] at h1 h2 hlt
      omega
  · intro hlt
    cases hre : retainElement o vh sy el with
    | false => rfl
    | true =>
      obtain ⟨h1, h2⟩ := hiff.mp hre
      exfalso
      simp only [Rect.top, Rect.bottom] at h1 h2 hlt
      omega

theorem claim6_viewport_boundary_witness :
    retainElement O6 800 0 boundaryButton = true :=
  ((claim6_viewport_boundary O6 800 0 1 boundaryButton rfl (by decide) (by decide)).2.2.1
      (by decide) (by decide) (by decide)).1 (by decide)

/-- Claim C7: an element smaller than the configured minimum size is
rejected before any other check — no identifier is issued, nothing is
emitted and the element is untouched — regardless of every other option,
including `includeHidden`. -/
theorem claim7_min_size (o : EvalOpts) (vh sy : Int) (c : Nat) (el : DomElement)
    (h : el.rect.width < o.minWidth ∨ el.rect.height < o.minHeight) :
    processElement o vh sy c el = (el, c, none) := by
  have hsz : passesSizeCheck o.minWidth o.minHeight el.rect = false := by
    simp only [passesSizeCheck, Bool.not_eq_false', Bool.or_eq_true, decide_eq_true_iff]
    tauto
  have hre : retainElement o vh sy el = false := by
    simp [retainElement, hsz]
  simp [processElement, hre]

theorem claim7_min_size_witness :
    processElement O7 800 0 5 tinyButton = (tinyButton, 5, none) :=
  claim7_min_size O7 800 0 5 tinyButton (Or.inl (by decide))

/-- Claim C8: retained count never exceeds discovered count and identifiers
are assigned exactly to the retained (emitted) elements; in the concrete
two-button page with default options the pass discovers 2, retains 1, and
the single descriptor is the visible button with identifier 1. -/
theorem claim8_counts :
    (∀ (page : SnapshotPage) (options : SnapshotOptions),
        (captureOptimizedSnapshot page options).visibleElements
            ≤ (captureOptimizedSnapshot page options).totalElements
          ∧ (captureOptimizedSnapshot page options).visibleElements
            = (captureOptimizedSnapshot page options).elementMap.length)
      ∧ (captureOptimizedSnapshot twoButtonPage {}).totalElements = 2
      ∧ (captureOptimizedSnapshot twoButtonPage {}).visibleElements = 1
      ∧ (captureOptimizedSnapshot twoButtonPage {}).elementMap.map ElementMetadata.text = ["OK"]
      ∧ (captureOptimizedSnapshot twoButtonPage {}).elementMap.map ElementMetadata.mcpId = [1] := by
  refine ⟨fun page options => ⟨?_, rfl⟩, by decide, by decide, by decide, by decide⟩
  exact (processFrames_facts (applyDefaults options) page.frames 1).2.2

/-- Claim C9: the legacy frame walk truncates at the fixed bound
`MAX_DEPTH = 10`: any call at a greater depth returns no elements and the
soft warning, instead of failing or recursing further.  (That the walk
terminates on every frame graph, cyclic ones included, is certified by the
termination measure `MAX_DEPTH + 1 - depth` under which Lean accepts
`collectAllElements` for an arbitrary graph `g`.) -/
theorem claim9_depth_bound (g : Nat → SFDoc) (d : SFDoc) (iframeChain : List SFIframe)
    (depth : Nat) (h : MAX_DEPTH < depth) :
    collectAllElements g d iframeChain depth = ([], [deepNestingWarning]) := by
  rw [collectAllElements]
  simp [h]

theorem claim9_depth_bound_witness :
    collectAllElements cyclicGraph cyclicDoc [] (MAX_DEPTH + 1) = ([], [deepNestingWarning]) :=
  claim9_depth_bound cyclicGraph cyclicDoc [] (MAX_DEPTH + 1) (by omega)

/-- Claim C10: a filtered-out element is left completely unmodified and
contributes neither a fragment nor a descriptor; a retained element is
modified only by setting its `data-mcp-id` attribute (every other attribute
and every field is preserved) and contributes exactly one fragment and one
descriptor. -/
theorem claim10_frame_effect (o : EvalOpts) (vh sy : Int) (c : Nat) (el : DomElement) :
    (retainElement o vh sy el = false → processElement o vh sy c el = (el, c, none))
      ∧ (retainElement o vh sy el = true →
          processElement o vh sy c el
            = (setMcpId el c, c + 1, some (buildFragment o el c, buildMeta o el c)))
      ∧ ((setMcpId el c).getAttribute "data-mcp-id" = some (toString c))
      ∧ (∀ key, key ≠ "data-mcp-id" →
          (setMcpId el c).getAttribute key = el.getAttribute key)
      ∧ (setMcpId el c).tagName = el.tagName ∧ (setMcpId el c).rect = el.rect
      ∧ (setMcpId el c).display = el.display ∧ (setMcpId el c).visibility = el.visibility
      ∧ (setMcpId el c).opacity = el.opacity ∧ (setMcpId el c).innerText = el.innerText
      ∧ (setMcpId el c).value = el.value := by
  refine ⟨fun h => by simp [processElement, h], fun h => by simp [processElement, h],
    getAttribute_setMcpId el c, ?_, rfl, rfl, rfl, rfl, rfl, rfl, rfl⟩
  intro key hk
  simp only [setMcpId, DomElement.getAttribute]
  exact getAttr_setAttr_ne el.attrs "data-mcp-id" key (toString c) hk

theorem claim10_frame_effect_witness :
    processElement O6 800 0 1 hiddenButton = (hiddenButton, 1, none)
      ∧ processElement O6 800 0 1 visibleButton
        = (setMcpId visibleButton 1, 2,
           some (buildFragment O6 visibleButton 1, buildMeta O6 visibleButton 1)) :=
  ⟨(claim10_frame_effect O6 800 0 1 hiddenButton).1 (by decide),
   (claim10_frame_effect O6 800 0 1 visibleButton).2.1 (by decide)⟩

/-- Claim C3 counterexample: an action call supplying BOTH an identifier and
a fallback reference is not rejected — the dispatch silently proceeds in
mcpId mode (mcpId takes precedence); likewise for drag with both pairs
supplied.  This refutes "supplying both … is rejected … before any
interaction". -/
theorem claim3_counterexample :
    selectAddressing (some 5) (some "e3") = .ok (.mcpId 5)
      ∧ selectDragAddressing (some 1) (some 2) (some "e1") (some "e2")
        = .ok (.mcpId 1, .mcpId 2) :=
  ⟨rfl, rfl⟩

/-- Claim C3 (amended): supplying neither addressing scheme is rejected with
a thrown error before the handler touches the page; supplying an identifier
— alone or together with a reference — selects identifier mode without any
rejection; supplying only a truthy reference selects reference mode.  The
drag handler behaves likewise over its two pairs. -/
theorem claim3_addressing_amended (mcpId : Option Nat) (ref : Option String)
    (startMcpId endMcpId : Option Nat) (startRef endRef : Option String) :
    (mcpId = none → jsTruthy ref = false →
        selectAddressing mcpId ref = .error addressingErrorMsg)
      ∧ (∀ id, mcpId = some id → selectAddressing mcpId ref = .ok (.mcpId id))
      ∧ (∀ r, mcpId = none → ref = some r → r ≠ "" →
          selectAddressing mcpId ref = .ok (.ref r))
      ∧ ((startMcpId = none ∨ endMcpId = none) →
          (jsTruthy startRef = false ∨ jsTruthy endRef = false) →
          selectDragAddressing startMcpId endMcpId startRef endRef
            = .error dragAddressingErrorMsg)
      ∧ (∀ s e, startMcpId = some s → endMcpId = some e →
          selectDragAddressing startMcpId endMcpId startRef endRef
            = .ok (.mcpId s, .mcpId e))
      ∧ (∀ a b, (startMcpId = none ∨ endMcpId = none) → startRef = some a →
          endRef = some b → a ≠ "" → b ≠ "" →
          selectDragAddressing startMcpId endMcpId startRef endRef
            = .ok (.ref a, .ref b)) := by
  refine ⟨?_, ?_, ?_, ?_, ?_, ?_⟩
  · intro h1 h2
    subst h1
    cases ref with
    | none => rfl
    | some r =>
      have hr : r = "" := by simpa [jsTruthy] using h2
      subst hr
      rfl
  · intro id h
    subst h
    rfl
  · intro r h1 h2 h3
    subst h1
    subst h2
    simp [selectAddressing, h3]
  · intro hmcp href
    have hcond : ∀ a b, startRef = some a → endRef = some b → (a = "" ∨ b = "") := by
      intro a b ha hb
      subst ha
      subst hb
      rcases href with h | h
      · left; simpa [jsTruthy] using h
      · right; simpa [jsTruthy] using h
    rcases startMcpId with _ | s <;> rcases endMcpId with _ | e
    · rcases startRef with _ | a <;> rcases endRef with _ | b
      · rfl
      · rfl
      · rfl
      · simp only [selectDragAddressing]
        rw [if_pos (hcond a b rfl rfl)]
    · rcases startRef with _ | a <;> rcases endRef with _ | b
      · rfl
      · rfl
      · rfl
      · simp only [selectDragAddressing]
        rw [if_pos (hcond a b rfl rfl)]
    · rcases startRef with _ | a <;> rcases endRef with _ | b
      · rfl
      · rfl
      · rfl
      · simp only [selectDragAddressing]
        rw [if_pos (hcond a b rfl rfl)]
    · exfalso
      rcases hmcp with h | h <;> simp at h
  · intro s e hs he
    subst hs
    subst he
    rfl
  · intro a b hmcp ha hb ha' hb'
    subst ha
    subst hb
    have hcond : ¬(a = "" ∨ b = "") := by
      rintro (h | h)
      · exact ha' h
      · exact hb' h
    rcases startMcpId with _ | s <;> rcases endMcpId with _ | e
    · simp only [selectDragAddressing]
      rw [if_neg hcond]
    · simp only [selectDragAddressing]
      rw [if_neg hcond]
    · simp only [selectDragAddressing]
      rw [if_neg hcond]
    · exfalso
      rcases hmcp with h | h <;> simp at h

theorem claim3_addressing_witness :
    selectAddressing none none = .error addressingErrorMsg
      ∧ selectDragAddressing none none none none = .error dragAddressingErrorMsg :=
  ⟨(claim3_addressing_amended none none none none none none).1 rfl rfl,
   (claim3_addressing_amended none none none none none none).2.2.2.1
     (Or.inl rfl) (Or.inl rfl)⟩

/-- A frame whose `frame.evaluate` rejects. -/
def failingFrame : PageFrame :=
  { detached := false, ancestorBoxes := [], evalError := some "frame was detached",
    doc := twoButtonDoc }

def failingPage : SnapshotPage := { frames := [failingFrame] }

/-- Claim C4 counterexample: on a page whose only frame fails evaluation no
frame at all is processed, yet the distill call resolves successfully with
an empty result (plus a warning) instead of returning an error — refuting
the "fails if and only if no frame could be processed" biconditional. -/
theorem claim4_counterexample :
    (processFrames (applyDefaults {}) 1 failingPage.frames).2.1 = []
      ∧ (captureOptimizedSnapshotFull failingPage {}).2.2
        = [frameErrorWarning "frame was detached"]
      ∧ captureOptimizedSnapshotE (.ok failingPage) {}
        = .ok { distilledHTML := "", elementMap := [], totalElements := 0,
                visibleElements := 0 } :=
  ⟨rfl, rfl, rfl⟩

/-- Claim C4 (amended): an error scoped to one frame's evaluation skips only
that frame, records exactly one warning, and leaves the processing of every
other frame (and the shared counter) unchanged; but the overall distill
operation never fails once the frame list was obtained — with no processable
frame it still resolves with an empty result — and it returns an error
exactly when enumerating the frames itself throws (the root page is gone). -/
theorem claim4_frame_isolation_amended :
    (∀ (r : ResolvedOptions) (c : Nat) (f : PageFrame) (rest : List PageFrame) (e : String),
        f.detached = false → f.evalError = some e →
        processFrames r c (f :: rest)
          = (f :: (processFrames r c rest).1, (processFrames r c rest).2.1,
             frameErrorWarning e :: (processFrames r c rest).2.2.1,
             (processFrames r c rest).2.2.2))
      ∧ (∀ (page : SnapshotPage) (options : SnapshotOptions),
          captureOptimizedSnapshotE (.ok page) options
            = .ok (captureOptimizedSnapshot page options))
      ∧ (∀ (e : String) (options : SnapshotOptions),
          captureOptimizedSnapshotE (.error e) options = .error e) :=
  ⟨processFrames_cons_error, fun _ _ => rfl, fun _ _ => rfl⟩

theorem claim4_frame_isolation_witness :
    processFrames (applyDefaults {}) 1 [failingFrame]
      = ([failingFrame], [], [frameErrorWarning "frame was detached"], 1) := by
  rw [claim4_frame_isolation_amended.1 (applyDefaults {}) 1 failingFrame []
    "frame was detached" rfl rfl]
  rfl

/-- A child frame whose only candidate is a visible button. -/
def childFrame : PageFrame :=
  { detached := false,
    ancestorBoxes := [some { x := 10, y := 20, width := 600, height := 400 }],
    evalError := none,
    doc := { viewportHeight := 400, scrollY := 0, elements := [visibleButton] } }

/-- A page whose only candidate element lives in a child frame. -/
def iframeOnlyPage : SnapshotPage := { frames := [emptyMainFrame, childFrame] }

/-- Claim C2 counterexample: the pass over `iframeOnlyPage` issues
identifier 1 for the child-frame button (it produces the only descriptor),
yet resolving identifier 1 immediately after that pass finds no element:
the lookup is a page-level (main-frame) attribute query, and no frame
context is captured at issuance (`ElementMetadata` records no frame
identity), so the claimed resolution guarantee fails. -/
theorem claim2_counterexample :
    (captureOptimizedSnapshot iframeOnlyPage {}).elementMap.map ElementMetadata.mcpId
        = [1]
      ∧ getElementByMcpId (captureOptimizedSnapshotFull iframeOnlyPage {}).2.1 1 = [] :=
  ⟨by decide, by decide⟩

/-- Claim C2 (amended): resolution is a main-frame-global marker-attribute
lookup carrying no frame context.  For a pass whose main frame evaluates
successfully and whose main-frame candidates bear no stale markers, there is
a bound `k` — the number of identifiers issued in the main frame — such that
every identifier `1 ≤ n ≤ k` resolves to exactly the marked element whose
descriptor it produced, while identifiers outside that range (those issued
in child frames, and those never issued) match no element at all; the lookup
itself never produces a distinct ElementNotFound error — it merely returns
an empty match. -/
theorem claim2_resolution_amended (page : SnapshotPage) (options : SnapshotOptions)
    (mainF : PageFrame) (rest : List PageFrame)
    (hframes : page.frames = mainF :: rest)
    (hdet : mainF.detached = false)
    (herr : mainF.evalError = none)
    (hfresh : ∀ el ∈ mainF.doc.elements, el.getAttribute "data-mcp-id" = none) :
    ∃ k : Nat,
      (∀ n, 1 ≤ n → n ≤ k →
          ∃ el, el ∈ mainF.doc.elements ∧
            getElementByMcpId (captureOptimizedSnapshotFull page options).2.1 n
              = [setMcpId el n] ∧
            buildMeta (mkEvalOpts (applyDefaults options) 1
                (computeFrameOffset mainF.ancestorBoxes)) el n
              ∈ (captureOptimizedSnapshot page options).elementMap)
        ∧ (∀ n, n = 0 ∨ k < n →
            getElementByMcpId (captureOptimizedSnapshotFull page options).2.1 n = []) := by
  cases page with
  | mk pfs =>
    replace hframes : pfs = mainF :: rest := hframes
    subst hframes
    set r := applyDefaults options with hr
    set o := mkEvalOpts r 1 (computeFrameOffset mainF.ancestorBoxes) with ho
    set pe := processElements o mainF.doc.viewportHeight mainF.doc.scrollY 1
      mainF.doc.elements with hpedef
    have hnext : pe.2.2.2 = 1 + pe.2.2.1.length :=
      (processElements_facts o mainF.doc.viewportHeight mainF.doc.scrollY
        mainF.doc.elements 1).2.1
    have hpf := processFrames_cons_ok r 1 mainF rest hdet herr
    have hresolve : ∀ n,
        getElementByMcpId (captureOptimizedSnapshotFull ⟨mainF :: rest⟩ options).2.1 n
          = pe.1.filter (hasMarker n) := by
      intro n
      have hfr : (captureOptimizedSnapshotFull ⟨mainF :: rest⟩ options).2.1.frames
          = { mainF with
                doc := (frameEvaluate (mkEvalOpts r 1
                  (computeFrameOffset mainF.ancestorBoxes)) mainF.doc).2 }
              :: (processFrames r
                    (frameEvaluate (mkEvalOpts r 1
                      (computeFrameOffset mainF.ancestorBoxes)) mainF.doc).1.nextId
                    rest).1 := by
        show (processFrames r 1 (mainF :: rest)).1 = _
        rw [hpf]
      simp only [getElementByMcpId, hfr]
      rfl
    have hmem : ∀ m, m ∈ pe.2.2.1 →
        m ∈ (captureOptimizedSnapshot ⟨mainF :: rest⟩ options).elementMap := by
      intro m hm
      have hsplit : (captureOptimizedSnapshot ⟨mainF :: rest⟩ options).elementMap
          = (frameEvaluate (mkEvalOpts r 1
                (computeFrameOffset mainF.ancestorBoxes)) mainF.doc).1.elementMap
            ++ ((processFrames r
                  (frameEvaluate (mkEvalOpts r 1
                    (computeFrameOffset mainF.ancestorBoxes)) mainF.doc).1.nextId
                  rest).2.1.map FrameEvalResult.elementMap).flatten := by
        show ((processFrames r 1 (mainF :: rest)).2.1.map
          FrameEvalResult.elementMap).flatten = _
        rw [hpf]
        rfl
      rw [hsplit]
      exact List.mem_append_left _ hm
    have hmark := processElements_markers o mainF.doc.viewportHeight
      mainF.doc.scrollY mainF.doc.elements 1 hfresh
    rw [← hpedef] at hmark
    refine ⟨pe.2.2.1.length, ?_, ?_⟩
    · intro n h1 h2
      obtain ⟨el, helmem, hfilter, hmeta⟩ := (hmark n).1 ⟨h1, by omega⟩
      exact ⟨el, helmem, by rw [hresolve n]; exact hfilter, hmem _ hmeta⟩
    · intro n hn
      rw [hresolve n]
      exact (hmark n).2 (by omega)

theorem claim2_resolution_witness :
    ∃ k : Nat,
      (∀ n, 1 ≤ n → n ≤ k →
          ∃ el, el ∈ twoButtonFrame.doc.elements ∧
            getElementByMcpId (captureOptimizedSnapshotFull twoButtonPage {}).2.1 n
              = [setMcpId el n] ∧
            buildMeta (mkEvalOpts (applyDefaults {}) 1
                (computeFrameOffset twoButtonFrame.ancestorBoxes)) el n
              ∈ (captureOptimizedSnapshot twoButtonPage {}).elementMap)
        ∧ (∀ n, n = 0 ∨ k < n →
            getElementByMcpId (captureOptimizedSnapshotFull twoButtonPage {}).2.1 n = []) :=
  claim2_resolution_amended twoButtonPage {} twoButtonFrame [] rfl rfl rfl (by decide)
